import Mathlib

/-!
Verification of the BLE advertising-data field parser and the QT device
telemetry decoder of clue_access (src/clue_access/schemas.py).

Bytes are modelled as natural numbers; byte strings as lists of naturals;
Python floats arising from the exact expression byte * 60 / 1000 as rationals.
Fallible operations return Option or Except: a returned error constructor
stands for the Python exception raised at the same program point
(IndexError while reading a type byte, UnicodeDecodeError, struct.error,
ValueError from an IntEnum constructor).
-/

set_option maxHeartbeats 1000000

/-- Mode of the device: the QTMode IntEnum of schemas.py. -/
inductive QTMode where
  | UNKNOWN
  | INSTALLER
  | DEALER
  | USER
  | NOSALE
  | BCA
  | VALET
  | BOOTLOAD
  | UNCONFIGURED
  deriving DecidableEq

/-- Integer value of a QTMode member. -/
def QTMode.val : QTMode → Nat
  | .UNKNOWN => 0
  | .INSTALLER => 1
  | .DEALER => 2
  | .USER => 3
  | .NOSALE => 4
  | .BCA => 5
  | .VALET => 6
  | .BOOTLOAD => 7
  | .UNCONFIGURED => 8

/-- The QTMode IntEnum constructor: QTMode(n) succeeds exactly on the defined
values 0..8 and raises ValueError otherwise (modelled as none). -/
def QTMode.ofNat? : Nat → Option QTMode
  | 0 => some .UNKNOWN
  | 1 => some .INSTALLER
  | 2 => some .DEALER
  | 3 => some .USER
  | 4 => some .NOSALE
  | 5 => some .BCA
  | 6 => some .VALET
  | 7 => some .BOOTLOAD
  | 8 => some .UNCONFIGURED
  | _ => none

/-- Color of the device: the QTColor IntEnum of schemas.py. -/
inductive QTColor where
  | ORANGE
  | BLUE
  | LIGHTGREEN
  | RED
  | MEDIUMPURPLE
  | LIGHTGREY
  deriving DecidableEq

/-- Integer value of a QTColor member. -/
def QTColor.val : QTColor → Nat
  | .ORANGE => 1
  | .BLUE => 2
  | .LIGHTGREEN => 3
  | .RED => 4
  | .MEDIUMPURPLE => 5
  | .LIGHTGREY => 6

/-- The QTColor IntEnum constructor: QTColor(n) succeeds exactly on the defined
values 1..6 and raises ValueError otherwise (modelled as none). -/
def QTColor.ofNat? : Nat → Option QTColor
  | 1 => some .ORANGE
  | 2 => some .BLUE
  | 3 => some .LIGHTGREEN
  | 4 => some .RED
  | 5 => some .MEDIUMPURPLE
  | 6 => some .LIGHTGREY
  | _ => none

/-- Strict UTF-8 decoding of a byte sequence into its code points, as Python
bytes.decode("utf-8") performs it: rejects lone or misplaced continuation
bytes, truncated sequences, overlong encodings (leads 0xC0/0xC1, E0 A0 floor,
F0 90 floor), surrogates (ED with second byte at or above 0xA0) and code
points above 0x10FFFF (leads above 0xF4). -/
def utf8Decode : List Nat → Option (List Nat)
  | [] => some []
  | b :: rest =>
    if b < 0x80 then
      (utf8Decode rest).map (fun cs => b :: cs)
    else if b < 0xC2 then
      none
    else if b < 0xE0 then
      match rest with
      | b1 :: rest2 =>
        if 0x80 ≤ b1 ∧ b1 < 0xC0 then
          (utf8Decode rest2).map (fun cs => ((b - 0xC0) * 0x40 + (b1 - 0x80)) :: cs)
        else none
      | [] => none
    else if b < 0xF0 then
      match rest with
      | b1 :: b2 :: rest3 =>
        if (0x80 ≤ b1 ∧ b1 < 0xC0) ∧ (0x80 ≤ b2 ∧ b2 < 0xC0) ∧
            (b = 0xE0 → 0xA0 ≤ b1) ∧ (b = 0xED → b1 < 0xA0) then
          (utf8Decode rest3).map
            (fun cs => ((b - 0xE0) * 0x1000 + (b1 - 0x80) * 0x40 + (b2 - 0x80)) :: cs)
        else none
      | _ => none
    else if b < 0xF5 then
      match rest with
      | b1 :: b2 :: b3 :: rest4 =>
        if (0x80 ≤ b1 ∧ b1 < 0xC0) ∧ (0x80 ≤ b2 ∧ b2 < 0xC0) ∧ (0x80 ≤ b3 ∧ b3 < 0xC0) ∧
            (b = 0xF0 → 0x90 ≤ b1) ∧ (b = 0xF4 → b1 < 0x90) then
          (utf8Decode rest4).map
            (fun cs =>
              ((b - 0xF0) * 0x40000 + (b1 - 0x80) * 0x1000 +
                (b2 - 0x80) * 0x40 + (b3 - 0x80)) :: cs)
        else none
      | _ => none
    else none

/-- The generator iter_fields nested in QTDevice.from_ble_device, materialised
as the list of yielded (type, value) pairs from a given starting offset.

Faithful to the Python loop: while offset < len(data), read the length byte
L = data[offset]; if L == 0 stop; read the type byte data[offset + 1] — a read
past the end raises IndexError, modelled as none; take the value as the slice
data[offset + 2 : offset + L + 1], which Python silently truncates at the end
of the buffer; yield and advance offset by L + 1. -/
def iter_fields (data : List Nat) (offset : Nat) : Option (List (Nat × List Nat)) :=
  if h : offset < data.length then
    if data.getD offset 0 = 0 then
      some []
    else
      match data[offset + 1]? with
      | none => none
      | some type_id =>
        match iter_fields data (offset + data.getD offset 0 + 1) with
        | none => none
        | some rest =>
          some ((type_id, (data.drop (offset + 2)).take (data.getD offset 0 - 1)) :: rest)
  else
    some []
termination_by data.length - offset
decreasing_by
  simp_wf
  omega

/-- The for-loop of from_ble_device that fills the fields dict: each parsed
(type, value) pair is inserted in order, so a later record at the same type
code overwrites an earlier one. The dict is modelled as a lookup function. -/
def buildFields (l : List (Nat × List Nat)) : Nat → Option (List Nat) :=
  l.foldl (fun m tv => fun k => if k = tv.1 then some tv.2 else m k) (fun _ => none)

/-- The distinct failure modes of one decode call, standing for the Python
exceptions propagating out of QTDevice.from_ble_device. -/
inductive DecodeError where
  | bufferMalformed
  | encodingError
  | sizeMismatch
  | colorRange
  | modeRange
  deriving DecidableEq

/-- The decoded telemetry record: the QTDevice row of schemas.py. The name is
kept as the list of code points produced by UTF-8 decoding. -/
structure QTDevice where
  ble_device_id : Nat
  name : List Nat
  mac : String
  color : QTColor
  mode : QTMode
  armed : Bool
  snowmode : Bool
  vbat : ℚ
  deriving DecidableEq

/-- The telemetry-decoding tail of QTDevice.from_ble_device, starting from the
materialised fields dict. Follows the Python statement order: fields.get(255,
b"") never fails; fields.get(9, b"").decode("utf-8") may raise
UnicodeDecodeError; struct.unpack("<BBBBBB", manufacturer_data) raises
struct.error unless the payload is exactly 6 bytes; QTColor(...) and
QTMode(...) raise ValueError on undefined values. -/
def QTDevice.decode (fields : Nat → Option (List Nat)) (mac : String)
    (ble_device_id : Nat) : Except DecodeError QTDevice :=
  match utf8Decode ((fields 9).getD []) with
  | none => Except.error DecodeError.encodingError
  | some name =>
    if ((fields 255).getD []).length = 6 then
      match QTColor.ofNat? (((((fields 255).getD []).getD 0 0 &&& 0xC0) >>> 6) |||
          ((((fields 255).getD []).getD 1 0 &&& 0xC0) >>> 4)) with
      | none => Except.error DecodeError.colorRange
      | some color =>
        match QTMode.ofNat? (((((fields 255).getD []).getD 2 0 &&& 0xC0) >>> 6) |||
            ((((fields 255).getD []).getD 3 0 &&& 0x40) >>> 4)) with
        | none => Except.error DecodeError.modeRange
        | some mode =>
          Except.ok
            { ble_device_id := ble_device_id
              name := name
              mac := mac
              color := color
              mode := mode
              armed := ((fields 255).getD []).getD 3 0 &&& 0x80 != 0
              snowmode := ((fields 255).getD []).getD 4 0 &&& 0x40 != 0
              vbat := (((fields 255).getD []).getD 5 0 : ℚ) * 60 / 1000 }
    else
      Except.error DecodeError.sizeMismatch

/-- QTDevice.from_ble_device end to end: parse the raw advertisement buffer
into fields, collect them into the dict, then decode the telemetry. The
asserted-non-None inputs (raw_data, mac, ble_device.id) are taken as given. -/
def QTDevice.from_ble_device (raw_data : List Nat) (mac : String)
    (ble_device_id : Nat) : Except DecodeError QTDevice :=
  match iter_fields raw_data 0 with
  | none => Except.error DecodeError.bufferMalformed
  | some l => QTDevice.decode (buildFields l) mac ble_device_id

/-- Encoding of a list of (type, value) records into an advertising buffer as
described by the format: for each record a length byte L = value length + 1,
then the type byte, then the value bytes. -/
def encodeRecords : List (Nat × List Nat) → List Nat
  | [] => []
  | (t, v) :: rs => (v.length + 1) :: t :: (v ++ encodeRecords rs)

/-! ## Helper lemmas -/

lemma utf8Decode_nil : utf8Decode [] = some [] := rfl

lemma utf8Decode_A : utf8Decode [65] = some [65] := rfl

lemma getD_append_self (pre : List Nat) (x : Nat) (l : List Nat) (d : Nat) :
    (pre ++ x :: l).getD pre.length d = x := by
  induction pre with
  | nil => simp
  | cons a pre ih => simpa using ih

lemma getElem?_append_one (pre : List Nat) (x y : Nat) (l : List Nat) :
    (pre ++ x :: y :: l)[pre.length + 1]? = some y := by
  induction pre with
  | nil => simp
  | cons a pre ih =>
    show (a :: (pre ++ x :: y :: l))[pre.length + 1 + 1]? = some y
    rw [List.getElem?_cons_succ]
    exact ih

lemma drop_append_two (pre : List Nat) (x y : Nat) (l : List Nat) :
    (pre ++ x :: y :: l).drop (pre.length + 2) = l := by
  induction pre with
  | nil => simp
  | cons a pre ih =>
    show (a :: (pre ++ x :: y :: l)).drop (pre.length + 2 + 1) = l
    rw [List.drop_succ_cons]
    exact ih

/-- The parser run on a well-formed record encoding, from the end of any
prefix: it reproduces exactly the encoded records. -/
lemma iter_fields_encode (records : List (Nat × List Nat)) :
    ∀ pre : List Nat, iter_fields (pre ++ encodeRecords records) pre.length = some records := by
  induction records with
  | nil =>
    intro pre
    rw [iter_fields]
    simp [encodeRecords]
  | cons r rs ih =>
    obtain ⟨t, v⟩ := r
    intro pre
    have hlen : pre.length < (pre ++ encodeRecords ((t, v) :: rs)).length := by
      simp only [encodeRecords, List.length_append, List.length_cons]
      omega
    rw [iter_fields, dif_pos hlen]
    simp only [encodeRecords, getD_append_self, getElem?_append_one, drop_append_two]
    have hne : ¬ (v.length + 1 = 0) := by omega
    rw [if_neg hne]
    have htake : (v ++ encodeRecords rs).take (v.length + 1 - 1) = v := by
      simpa using List.take_left v (encodeRecords rs)
    have hrec : pre ++ (v.length + 1) :: t :: (v ++ encodeRecords rs)
        = (pre ++ (v.length + 1) :: t :: v) ++ encodeRecords rs := by
      simp
    have hoff : pre.length + (v.length + 1) + 1 = (pre ++ (v.length + 1) :: t :: v).length := by
      simp only [List.length_append, List.length_cons]
      omega
    rw [htake, hrec, hoff, ih]

/-- Inversion of one parser step: a yielded pair means the length byte was
nonzero, the type byte was in bounds, and the tail was parsed from the
advanced offset. -/
lemma iter_fields_cons_inv {data : List Nat} {offset : Nat} {p : Nat × List Nat}
    {rest : List (Nat × List Nat)}
    (h : iter_fields data offset = some (p :: rest)) :
    offset + 1 < data.length ∧ data.getD offset 0 ≠ 0 ∧
      iter_fields data (offset + data.getD offset 0 + 1) = some rest := by
  rw [iter_fields] at h
  by_cases h1 : offset < data.length
  · rw [dif_pos h1] at h
    by_cases h0 : data.getD offset 0 = 0
    · rw [if_pos h0] at h
      simp at h
    · rw [if_neg h0] at h
      cases h2 : data[offset + 1]? with
      | none =>
        rw [h2] at h
        simp at h
      | some t =>
        rw [h2] at h
        have hlt : offset + 1 < data.length := by
          by_contra hge
          rw [List.getElem?_eq_none (by omega)] at h2
          cases h2
        cases h3 : iter_fields data (offset + data.getD offset 0 + 1) with
        | none =>
          rw [h3] at h
          simp at h
        | some rs =>
          rw [h3] at h
          simp at h
          exact ⟨hlt, h0, congrArg some h.2⟩
  · rw [dif_neg h1] at h
    simp at h

/-- The dict built by the collection loop looks up a type code to the value of
its last occurrence in the parsed sequence (none when the code never occurs). -/
lemma buildFields_eq_getLast (l : List (Nat × List Nat)) (k : Nat) :
    buildFields l k = ((l.filter (fun tv => tv.1 == k)).getLast?).map Prod.snd := by
  induction l using List.reverseRecOn with
  | nil => rfl
  | append_singleton init p ih =>
    simp only [buildFields, List.foldl_append, List.foldl_cons, List.foldl_nil] at ih ⊢
    by_cases hk : p.1 = k
    · simp [List.filter_append, hk]
    · have hbeq : (p.1 == k) = false := by simpa using hk
      have hke : ¬ (k = p.1) := fun h => hk h.symm
      simp [List.filter_append, hbeq, hke, ih]

lemma QTColor.ofNat?_none_iff_color (n : Nat) :
    QTColor.ofNat? n = none ↔ n ∉ ({1, 2, 3, 4, 5, 6} : Finset ℕ) := by
  rcases n with _|_|_|_|_|_|_|n <;> simp [QTColor.ofNat?]

lemma QTMode.ofNat?_none_iff_mode (n : Nat) :
    QTMode.ofNat? n = none ↔ n ∉ ({0, 1, 2, 3, 4, 5, 6, 7, 8} : Finset ℕ) := by
  rcases n with _|_|_|_|_|_|_|_|_|n <;> simp [QTMode.ofNat?]

lemma QTColor.val_ofNat?_color {n : Nat} {c : QTColor} (h : QTColor.ofNat? n = some c) :
    c.val = n := by
  rcases n with _|_|_|_|_|_|_|n <;> simp [QTColor.ofNat?] at h <;>
    simp [← h, QTColor.val]

lemma QTMode.val_ofNat?_mode {n : Nat} {m : QTMode} (h : QTMode.ofNat? n = some m) :
    m.val = n := by
  rcases n with _|_|_|_|_|_|_|_|_|n <;> simp [QTMode.ofNat?] at h <;>
    simp [← h, QTMode.val]

/-! ## Claims about the Field Parser -/

/-- C2: for every finite list of records (type, value) with value lengths at
most 254 and single-byte type codes, the parser applied to the buffer built by
concatenating, per record, the length byte (value length + 1), the type byte
and the value bytes, yields exactly those pairs, in order, and nothing else. -/
theorem C2_theorem (records : List (Nat × List Nat))
    (hbytes : ∀ p ∈ records, p.2.length ≤ 254 ∧ p.1 < 256 ∧ ∀ b ∈ p.2, b < 256) :
    iter_fields (encodeRecords records) 0 = some records :=
  iter_fields_encode records []

/-- C2 witness: a concrete two-record buffer parses back to its records. -/
theorem C2_witness :
    iter_fields (encodeRecords [(7, [1, 2]), (9, [65])]) 0 = some [(7, [1, 2]), (9, [65])] :=
  C2_theorem [(7, [1, 2]), (9, [65])] (by decide)

/-- C8: the parser yields the empty sequence on an empty buffer; at a zero
length byte it stops at once, ignoring every byte after it; in particular a
single zero byte yields the empty sequence. -/
theorem C8_theorem :
    iter_fields [] 0 = some [] ∧
    (∀ (data : List Nat) (offset : Nat), offset < data.length →
      data.getD offset 0 = 0 → iter_fields data offset = some []) ∧
    iter_fields [0] 0 = some [] := by
  refine ⟨by rw [iter_fields]; simp, ?_, by rw [iter_fields]; simp⟩
  intro data offset h h0
  rw [iter_fields, dif_pos h, if_pos h0]

/-- C8 witness: a zero length byte followed by junk still yields the empty
sequence. -/
theorem C8_witness : iter_fields [0, 9, 9] 0 = some [] :=
  C8_theorem.2.1 [0, 9, 9] 0 (by decide) (by decide)

/-- C10: the parser is a total function (defined by well-founded recursion on
the remaining buffer), and on any successful run every yielded pair consumed
at least two in-bounds bytes, so the number of yielded pairs is at most half
the buffer length — hence the loop runs at most length / 2 + 1 iterations. -/
theorem C10_theorem (data : List Nat) (l : List (Nat × List Nat))
    (h : iter_fields data 0 = some l) :
    2 * l.length ≤ data.length ∧ l.length + 1 ≤ data.length / 2 + 1 := by
  have main : ∀ (l : List (Nat × List Nat)) (offset : Nat),
      iter_fields data offset = some l → l = [] ∨ offset + 2 * l.length ≤ data.length := by
    intro l
    induction l with
    | nil => exact fun _ _ => Or.inl rfl
    | cons p rest ih =>
      intro offset hoff
      obtain ⟨h1, h0, h2⟩ := iter_fields_cons_inv hoff
      right
      rcases ih _ h2 with h3 | h3
      · subst h3
        simp only [List.length_cons, List.length_nil]
        omega
      · simp only [List.length_cons]
        omega
    
  have hb : 2 * l.length ≤ data.length := by
    rcases main l 0 h with h3 | h3
    · subst h3
      simp
    · omega
  exact ⟨hb, by omega⟩

/-- C10 witness: a concrete four-byte buffer yields one pair, within the
bound. -/
theorem C10_witness :
    2 * [((7 : Nat), [1, 2])].length ≤ [3, 7, 1, 2].length ∧
      [((7 : Nat), [1, 2])].length + 1 ≤ [3, 7, 1, 2].length / 2 + 1 :=
  C10_theorem [3, 7, 1, 2] [(7, [1, 2])] (by simp [iter_fields])

/-- C3 counterexample: on the buffer [2, 7] the record declares length 2, so
one value byte should follow the type byte 7, but the buffer ends; the parser
does not fail — it yields the pair (7, empty), a silently truncated prefix of
the declared value. -/
theorem C3_counterexample :
    iter_fields [2, 7] 0 ≠ none ∧ iter_fields [2, 7] 0 = some [(7, [])] := by
  have h : iter_fields [2, 7] 0 = some [(7, [])] := by simp [iter_fields]
  exact ⟨by simp [h], h⟩

/-- C3 amended: when a record's declared length would overrun the buffer, the
parser fails (an uncaught IndexError) only if the type byte itself lies past
the end; when only value bytes are missing it yields the pair with the value
silently truncated to the bytes available, and then stops. -/
theorem C3_amended_theorem (data : List Nat) (offset : Nat)
    (h : offset < data.length) (hnz : data.getD offset 0 ≠ 0)
    (hover : data.length < offset + data.getD offset 0 + 1) :
    (data.length ≤ offset + 1 → iter_fields data offset = none) ∧
    (offset + 1 < data.length →
      iter_fields data offset = some [(data.getD (offset + 1) 0, data.drop (offset + 2))]) := by
  constructor
  · intro hty
    rw [iter_fields, dif_pos h, if_neg hnz, List.getElem?_eq_none hty]
  · intro hty
    have hstop : iter_fields data (offset + data.getD offset 0 + 1) = some [] := by
      rw [iter_fields, dif_neg (by omega)]
    have hget : data[offset + 1]? = some (data.getD (offset + 1) 0) := by
      rw [List.getElem?_eq_getElem hty]
      simp [List.getD, List.getElem?_eq_getElem hty]
    have htake : (data.drop (offset + 2)).take (data.getD offset 0 - 1)
        = data.drop (offset + 2) := by
      apply List.take_of_length_le
      rw [List.length_drop]
      omega
    rw [iter_fields, dif_pos h, if_neg hnz, hget, hstop, htake]

/-- C3 witness: buffer [3, 7, 1] declares two value bytes but holds one; the
parser yields (7, [1]) truncated. -/
theorem C3_witness : iter_fields [3, 7, 1] 0 = some [(7, [1])] :=
  (C3_amended_theorem [3, 7, 1] 0 (by decide) (by decide) (by decide)).2 (by decide)

/-- C9: whenever a type code occurs in more than one parsed record of a
buffer, the dict built from the parser output maps that type code to the value
bytes of its last occurrence in buffer order. -/
theorem C9_theorem (data : List Nat) (l : List (Nat × List Nat)) (t : Nat)
    (hp : iter_fields data 0 = some l)
    (hdup : 2 ≤ (l.filter (fun tv => tv.1 == t)).length) :
    ∃ p : Nat × List Nat,
      (l.filter (fun tv => tv.1 == t)).getLast? = some p ∧ buildFields l t = some p.2 := by
  have hne : l.filter (fun tv => tv.1 == t) ≠ [] := by
    intro hnil
    rw [hnil] at hdup
    simp at hdup
  obtain ⟨p, hp2⟩ : ∃ p, (l.filter (fun tv => tv.1 == t)).getLast? = some p := by
    have := List.getLast?_isSome.mpr hne
    exact Option.isSome_iff_exists.mp this
  exact ⟨p, hp2, by rw [buildFields_eq_getLast, hp2]; rfl⟩

/-- C9 witness: the buffer [2, 7, 1, 2, 7, 2] holds two records with type 7;
the dict keeps the later value [2]. -/
theorem C9_witness :
    ∃ p : Nat × List Nat,
      (([((7 : Nat), [(1 : Nat)]), (7, [2])].filter (fun tv => tv.1 == 7)).getLast? = some p) ∧
      buildFields [(7, [1]), (7, [2])] 7 = some p.2 :=
  C9_theorem [2, 7, 1, 2, 7, 2] [(7, [1]), (7, [2])] 7 (by simp [iter_fields]) (by decide)

/-! ## Claims about the Telemetry Decoder -/

/-- Reduction of decode once the name field decodes and the manufacturer
payload is a six-byte list. -/
lemma decode_unfold (fields : Nat → Option (List Nat)) (mac : String) (id : Nat)
    (b0 b1 b2 b3 b4 b5 : Nat) (nm : List Nat)
    (hm : fields 255 = some [b0, b1, b2, b3, b4, b5])
    (hname : utf8Decode ((fields 9).getD []) = some nm) :
    QTDevice.decode fields mac id =
      match QTColor.ofNat? (((b0 &&& 0xC0) >>> 6) ||| ((b1 &&& 0xC0) >>> 4)) with
      | none => Except.error DecodeError.colorRange
      | some color =>
        match QTMode.ofNat? (((b2 &&& 0xC0) >>> 6) ||| ((b3 &&& 0x40) >>> 4)) with
        | none => Except.error DecodeError.modeRange
        | some mode =>
          Except.ok ⟨id, nm, mac, color, mode, b3 &&& 0x80 != 0, b4 &&& 0x40 != 0,
            (b5 : ℚ) * 60 / 1000⟩ := by
  unfold QTDevice.decode
  rw [hname, hm]
  rfl

/-- Decode fails with the encoding error when the name bytes are not valid
UTF-8. -/
lemma decode_encodingError (fields : Nat → Option (List Nat)) (mac : String) (id : Nat)
    (hname : utf8Decode ((fields 9).getD []) = none) :
    QTDevice.decode fields mac id = Except.error DecodeError.encodingError := by
  unfold QTDevice.decode
  rw [hname]

/-- Complete case analysis of decode once the name field decodes: the result
is one of the three later errors, or a record carrying the decoded name. -/
lemma decode_cases (fields : Nat → Option (List Nat)) (mac : String) (id : Nat)
    (nm : List Nat) (hname : utf8Decode ((fields 9).getD []) = some nm) :
    QTDevice.decode fields mac id = Except.error DecodeError.sizeMismatch ∨
    QTDevice.decode fields mac id = Except.error DecodeError.colorRange ∨
    QTDevice.decode fields mac id = Except.error DecodeError.modeRange ∨
    ∃ r : QTDevice, QTDevice.decode fields mac id = Except.ok r ∧ r.name = nm := by
  unfold QTDevice.decode
  rw [hname]
  dsimp only
  split
  · split
    · exact Or.inr (Or.inl rfl)
    · split
      · exact Or.inr (Or.inr (Or.inl rfl))
      · exact Or.inr (Or.inr (Or.inr ⟨_, rfl, rfl⟩))
  · exact Or.inl rfl

/-- C5: whenever the manufacturer-data field (type 255) is absent — the code
then substitutes empty bytes — or present with a value that is not exactly 6
bytes, the decoder never returns a record, and whenever the name bytes decode
as UTF-8 it fails precisely with the size-mismatch error (struct.error);
success is possible only with an exactly-6-byte manufacturer value. -/
theorem C5_theorem (fields : Nat → Option (List Nat)) (mac : String) (id : Nat)
    (hm : ((fields 255).getD []).length ≠ 6) :
    (∀ r : QTDevice, QTDevice.decode fields mac id ≠ Except.ok r) ∧
    (∀ name : List Nat, utf8Decode ((fields 9).getD []) = some name →
      QTDevice.decode fields mac id = Except.error DecodeError.sizeMismatch) := by
  constructor
  · intro r hr
    unfold QTDevice.decode at hr
    split at hr
    · cases hr
    · rw [if_neg hm] at hr
      cases hr
  · intro name hn
    unfold QTDevice.decode
    split
    · rename_i heq
      rw [hn] at heq
      cases heq
    · rw [if_neg hm]

/-- C5 witness: a three-byte manufacturer value fails with the size-mismatch
error. -/
theorem C5_witness :
    QTDevice.decode (fun k => if k = 255 then some [1, 2, 3] else none) "AA:BB:CC:DD:EE:FF" 1 =
      Except.error DecodeError.sizeMismatch :=
  (C5_theorem (fun k => if k = 255 then some [1, 2, 3] else none) "AA:BB:CC:DD:EE:FF" 1
    (by decide)).2 [] rfl

/-- C7: for every six-byte manufacturer payload whose assembled color integer
is outside 1..6 or whose assembled mode integer is outside 0..8, the decoder
never returns a record, and whenever the name bytes decode as UTF-8 it fails
with a range error (the ValueError of the color or mode enumeration); no
default member is ever substituted. -/
theorem C7_theorem (fields : Nat → Option (List Nat)) (mac : String) (id : Nat)
    (b0 b1 b2 b3 b4 b5 : Nat)
    (hm : fields 255 = some [b0, b1, b2, b3, b4, b5])
    (hbad : (((b0 &&& 0xC0) >>> 6) ||| ((b1 &&& 0xC0) >>> 4)) ∉ ({1, 2, 3, 4, 5, 6} : Finset ℕ) ∨
      (((b2 &&& 0xC0) >>> 6) ||| ((b3 &&& 0x40) >>> 4)) ∉
        ({0, 1, 2, 3, 4, 5, 6, 7, 8} : Finset ℕ)) :
    (∀ r : QTDevice, QTDevice.decode fields mac id ≠ Except.ok r) ∧
    (∀ name : List Nat, utf8Decode ((fields 9).getD []) = some name →
      QTDevice.decode fields mac id = Except.error DecodeError.colorRange ∨
      QTDevice.decode fields mac id = Except.error DecodeError.modeRange) := by
  have hcm : QTColor.ofNat? (((b0 &&& 0xC0) >>> 6) ||| ((b1 &&& 0xC0) >>> 4)) = none ∨
      QTMode.ofNat? (((b2 &&& 0xC0) >>> 6) ||| ((b3 &&& 0x40) >>> 4)) = none := by
    rcases hbad with hb | hb
    · exact Or.inl ((QTColor.ofNat?_none_iff_color _).mpr hb)
    · exact Or.inr ((QTMode.ofNat?_none_iff_mode _).mpr hb)
  have key : ∀ name : List Nat, utf8Decode ((fields 9).getD []) = some name →
      QTDevice.decode fields mac id = Except.error DecodeError.colorRange ∨
      QTDevice.decode fields mac id = Except.error DecodeError.modeRange := by
    intro name hname
    rw [decode_unfold fields mac id b0 b1 b2 b3 b4 b5 name hm hname]
    rcases hcm with hc | hc
    · rw [hc]
      exact Or.inl rfl
    · cases hcol : QTColor.ofNat? (((b0 &&& 0xC0) >>> 6) ||| ((b1 &&& 0xC0) >>> 4)) with
      | none => exact Or.inl rfl
      | some c =>
        rw [hc]
        exact Or.inr rfl
  refine ⟨?_, key⟩
  intro r hr
  cases hname : utf8Decode ((fields 9).getD []) with
  | none =>
    rw [decode_encodingError fields mac id hname] at hr
    cases hr
  | some name =>
    rcases key name hname with hk | hk <;> rw [hk] at hr <;> cases hr

/-- C7 witness: the all-zero payload assembles color 0, outside the
enumeration, and the decoder fails with a range error. -/
theorem C7_witness :
    QTDevice.decode (fun k => if k = 255 then some [0, 0, 0, 0, 0, 0] else none)
      "AA:BB:CC:DD:EE:FF" 1 = Except.error DecodeError.colorRange ∨
    QTDevice.decode (fun k => if k = 255 then some [0, 0, 0, 0, 0, 0] else none)
      "AA:BB:CC:DD:EE:FF" 1 = Except.error DecodeError.modeRange :=
  (C7_theorem (fun k => if k = 255 then some [0, 0, 0, 0, 0, 0] else none) "AA:BB:CC:DD:EE:FF" 1
    0 0 0 0 0 0 rfl (Or.inl (by decide))).2 [] rfl

/-- C4 counterexample: a mapping with a valid six-byte manufacturer value and
no name field (type 9) decodes successfully — no field-missing failure — and
the record carries the defaulted empty name. -/
theorem C4_counterexample :
    QTDevice.decode (fun k => if k = 255 then some [0xC0, 0, 0xC0, 0, 0, 0] else none)
      "AA:BB:CC:DD:EE:FF" 1 =
    Except.ok ⟨1, [], "AA:BB:CC:DD:EE:FF", QTColor.LIGHTGREEN, QTMode.USER, false, false, 0⟩ := by
  simp [QTDevice.decode, utf8Decode_nil, QTColor.ofNat?, QTMode.ofNat?]

/-- C4 amended: when the name field (type 9) is absent the decoder does not
fail on it — fields.get(9, b"") substitutes empty bytes, which decode as the
empty string — so decoding never reports the encoding error and any record it
returns has the empty name. -/
theorem C4_amended_theorem (fields : Nat → Option (List Nat)) (mac : String) (id : Nat)
    (h9 : fields 9 = none) :
    QTDevice.decode fields mac id ≠ Except.error DecodeError.encodingError ∧
    (∀ r : QTDevice, QTDevice.decode fields mac id = Except.ok r → r.name = []) := by
  have hname : utf8Decode ((fields 9).getD []) = some [] := by rw [h9]; rfl
  constructor
  · intro heq
    rcases decode_cases fields mac id [] hname with h | h | h | ⟨r0, hr0, hn0⟩
    · rw [h] at heq
      injection heq with h2
      cases h2
    · rw [h] at heq
      injection heq with h2
      cases h2
    · rw [h] at heq
      injection heq with h2
      cases h2
    · rw [hr0] at heq
      cases heq
  · intro r hr
    rcases decode_cases fields mac id [] hname with h | h | h | ⟨r0, hr0, hn0⟩
    · rw [h] at hr
      cases hr
    · rw [h] at hr
      cases hr
    · rw [h] at hr
      cases hr
    · rw [hr0] at hr
      injection hr with h2
      rw [← h2]
      exact hn0

/-- C4 witness: the nameless mapping of the counterexample never produces the
encoding error. -/
theorem C4_witness :
    QTDevice.decode (fun k => if k = 255 then some [0xC0, 0, 0xC0, 0, 0, 0] else none)
      "AA:BB:CC:DD:EE:FF" 1 ≠ Except.error DecodeError.encodingError :=
  (C4_amended_theorem (fun k => if k = 255 then some [0xC0, 0, 0xC0, 0, 0, 0] else none)
    "AA:BB:CC:DD:EE:FF" 1 rfl).1

/-- C6: on any six-byte manufacturer payload b0..b5 for which decoding
succeeds, the record's fields are exactly the specified bit extractions:
color value, mode value, armed bit 7 of byte 3, snow-mode bit 6 of byte 4,
and battery voltage byte5 * 60 / 1000. -/
theorem C6_theorem (fields : Nat → Option (List Nat)) (mac : String) (id : Nat)
    (b0 b1 b2 b3 b4 b5 : Nat)
    (hbytes : b0 < 256 ∧ b1 < 256 ∧ b2 < 256 ∧ b3 < 256 ∧ b4 < 256 ∧ b5 < 256)
    (hm : fields 255 = some [b0, b1, b2, b3, b4, b5])
    (r : QTDevice) (h : QTDevice.decode fields mac id = Except.ok r) :
    r.color.val = ((b0 &&& 0xC0) >>> 6) ||| ((b1 &&& 0xC0) >>> 4) ∧
    r.mode.val = ((b2 &&& 0xC0) >>> 6) ||| ((b3 &&& 0x40) >>> 4) ∧
    (r.armed = true ↔ b3 &&& 0x80 ≠ 0) ∧
    (r.snowmode = true ↔ b4 &&& 0x40 ≠ 0) ∧
    r.vbat = (b5 : ℚ) * 60 / 1000 := by
  cases hname : utf8Decode ((fields 9).getD []) with
  | none =>
    rw [decode_encodingError fields mac id hname] at h
    cases h
  | some nm =>
    rw [decode_unfold fields mac id b0 b1 b2 b3 b4 b5 nm hm hname] at h
    cases hc : QTColor.ofNat? (((b0 &&& 0xC0) >>> 6) ||| ((b1 &&& 0xC0) >>> 4)) with
    | none =>
      rw [hc] at h
      cases h
    | some color =>
      rw [hc] at h
      cases hmo : QTMode.ofNat? (((b2 &&& 0xC0) >>> 6) ||| ((b3 &&& 0x40) >>> 4)) with
      | none =>
        rw [hmo] at h
        cases h
      | some mode =>
        rw [hmo] at h
        injection h with h2
        rw [← h2]
        refine ⟨QTColor.val_ofNat?_color hc, QTMode.val_ofNat?_mode hmo, ?_, ?_, rfl⟩
        · simp [bne_iff_ne]
        · simp [bne_iff_ne]

/-- C6 witness: the payload C0 00 C0 80 40 C8 decodes to light green, user
mode, armed, snow mode, 12 volts, matching the bit extractions. -/
theorem C6_witness :
    (QTDevice.mk 1 [] "AA:BB:CC:DD:EE:FF" QTColor.LIGHTGREEN QTMode.USER true true 12).color.val =
      ((0xC0 &&& 0xC0) >>> 6) ||| ((0 &&& 0xC0) >>> 4) ∧
    (QTDevice.mk 1 [] "AA:BB:CC:DD:EE:FF" QTColor.LIGHTGREEN QTMode.USER true true 12).mode.val =
      ((0xC0 &&& 0xC0) >>> 6) ||| ((0x80 &&& 0x40) >>> 4) ∧
    ((QTDevice.mk 1 [] "AA:BB:CC:DD:EE:FF" QTColor.LIGHTGREEN QTMode.USER true true 12).armed
        = true ↔ (0x80 : Nat) &&& 0x80 ≠ 0) ∧
    ((QTDevice.mk 1 [] "AA:BB:CC:DD:EE:FF" QTColor.LIGHTGREEN QTMode.USER true true 12).snowmode
        = true ↔ (0x40 : Nat) &&& 0x40 ≠ 0) ∧
    (QTDevice.mk 1 [] "AA:BB:CC:DD:EE:FF" QTColor.LIGHTGREEN QTMode.USER true true 12).vbat =
      ((0xC8 : Nat) : ℚ) * 60 / 1000 :=
  C6_theorem (fun k => if k = 255 then some [0xC0, 0, 0xC0, 0x80, 0x40, 0xC8] else none)
    "AA:BB:CC:DD:EE:FF" 1 0xC0 0 0xC0 0x80 0x40 0xC8 (by decide) rfl
    (QTDevice.mk 1 [] "AA:BB:CC:DD:EE:FF" QTColor.LIGHTGREEN QTMode.USER true true 12)
    (by simp [QTDevice.decode, utf8Decode_nil, QTColor.ofNat?, QTMode.ofNat?]; norm_num)

/-- C1 counterexample: a full advertisement holding a name record and the
manufacturer payload 40 80 C0 C0 40 C8 does not decode to a record at all —
it fails with the color range error, because the assembled color integer is
9, not a defined enumeration value. -/
theorem C1_counterexample :
    QTDevice.from_ble_device [2, 9, 65, 7, 255, 0x40, 0x80, 0xC0, 0xC0, 0x40, 0xC8]
      "AA:BB:CC:DD:EE:FF" 1 = Except.error DecodeError.colorRange := by
  have hp : iter_fields [2, 9, 65, 7, 255, 0x40, 0x80, 0xC0, 0xC0, 0x40, 0xC8] 0 =
      some [(9, [65]), (255, [0x40, 0x80, 0xC0, 0xC0, 0x40, 0xC8])] := by
    simp [iter_fields]
  unfold QTDevice.from_ble_device
  rw [hp]
  simp [QTDevice.decode, buildFields, utf8Decode_A, QTColor.ofNat?]

/-- C1 amended: for any mapping whose manufacturer value is the payload
40 80 C0 C0 40 C8 and whose name bytes decode as UTF-8, decoding fails with
the color range error: the assembled color integer is 9, which has no
QTColor member; the assembled mode is 7, the armed and snow-mode bits are
set, and the battery byte corresponds to 12.0 volts. -/
theorem C1_amended_theorem (fields : Nat → Option (List Nat)) (mac : String) (id : Nat)
    (hm : fields 255 = some [0x40, 0x80, 0xC0, 0xC0, 0x40, 0xC8])
    (name : List Nat) (hname : utf8Decode ((fields 9).getD []) = some name) :
    QTDevice.decode fields mac id = Except.error DecodeError.colorRange ∧
    ((0x40 &&& 0xC0) >>> 6) ||| ((0x80 &&& 0xC0) >>> 4) = 9 ∧
    QTColor.ofNat? 9 = none ∧
    ((0xC0 &&& 0xC0) >>> 6) ||| ((0xC0 &&& 0x40) >>> 4) = 7 ∧
    (0xC0 : Nat) &&& 0x80 ≠ 0 ∧ (0x40 : Nat) &&& 0x40 ≠ 0 ∧
    ((0xC8 : Nat) : ℚ) * 60 / 1000 = 12 := by
  refine ⟨?_, by decide, by decide, by decide, by decide, by decide, by norm_num⟩
  rw [decode_unfold fields mac id 0x40 0x80 0xC0 0xC0 0x40 0xC8 name hm hname]
  rw [show QTColor.ofNat? (((0x40 &&& 0xC0) >>> 6) ||| ((0x80 &&& 0xC0) >>> 4)) = none from rfl]

/-- C1 witness: a mapping holding the payload and the one-character name A
fails with the color range error. -/
theorem C1_witness :
    QTDevice.decode
      (fun k => if k = 9 then some [65]
        else if k = 255 then some [0x40, 0x80, 0xC0, 0xC0, 0x40, 0xC8] else none)
      "AA:BB:CC:DD:EE:FF" 1 = Except.error DecodeError.colorRange :=
  (C1_amended_theorem
    (fun k => if k = 9 then some [65]
      else if k = 255 then some [0x40, 0x80, 0xC0, 0xC0, 0x40, 0xC8] else none)
    "AA:BB:CC:DD:EE:FF" 1 rfl [65] rfl).1
